import Mathlib

/-!
Shallow embedding of the core of `src/index.js`: a small Express backend over
MongoDB exposing

  * `GET /search?q=TOKEN`  — query translation over the lessons collection,
  * `PUT /lessons/:id`     — spaces adjustment via `findOneAndUpdate` + `$inc`,
  * `POST /orders`         — order intake with truthiness validation.

JavaScript numbers are idealised as exact rationals extended with the three
non-finite values (`NaN`, `Infinity`, `-Infinity`); JSON values are modelled by
an explicit inductive type, and the document store by an association list from
`_id` hex strings to documents.  Each HTTP handler becomes a pure function from
the request data and the store to a response and an updated store.
-/

set_option autoImplicit false
set_option linter.unusedVariables false

namespace Backend

/-! ### Kernel-reducible rational arithmetic

The standard `Rat` operations are `@[irreducible]`, so concrete runs of the
embedded handlers could not be checked by `decide`.  The embedding therefore
computes with the following `mkRat`-based operations; `qAdd_eq` etc. below
prove them equal to the standard ones, so theorems can be stated with the
ordinary `+`, `*`, `/`. -/

def qAdd (a b : ℚ) : ℚ := mkRat (a.num * b.den + b.num * a.den) (a.den * b.den)

def qMul (a b : ℚ) : ℚ := mkRat (a.num * b.num) (a.den * b.den)

def qNeg (a : ℚ) : ℚ := mkRat (-a.num) a.den

def qInv (a : ℚ) : ℚ :=
  if a.num < 0 then mkRat (-(a.den : ℤ)) a.num.natAbs
  else mkRat a.den a.num.natAbs

def qDiv (a b : ℚ) : ℚ := qMul a (qInv b)

theorem qAdd_eq (a b : ℚ) : qAdd a b = a + b := by
  have ha : ((a.den : ℚ)) ≠ 0 := by
    exact_mod_cast a.den_nz
  have hb : ((b.den : ℚ)) ≠ 0 := by
    exact_mod_cast b.den_nz
  rw [qAdd, Rat.mkRat_eq_div]
  conv_rhs => rw [← Rat.num_div_den a, ← Rat.num_div_den b]
  rw [div_add_div _ _ ha hb]
  push_cast
  ring_nf

theorem qMul_eq (a b : ℚ) : qMul a b = a * b := by
  have ha : ((a.den : ℚ)) ≠ 0 := by
    exact_mod_cast a.den_nz
  have hb : ((b.den : ℚ)) ≠ 0 := by
    exact_mod_cast b.den_nz
  rw [qMul, Rat.mkRat_eq_div]
  conv_rhs => rw [← Rat.num_div_den a, ← Rat.num_div_den b]
  rw [div_mul_div_comm]
  push_cast
  ring_nf

theorem qNeg_eq (a : ℚ) : qNeg a = -a := by
  rw [qNeg, Rat.mkRat_eq_div]
  conv_rhs => rw [← Rat.num_div_den a]
  push_cast
  rw [neg_div]

theorem qInv_eq (a : ℚ) : qInv a = a⁻¹ := by
  rw [Rat.inv_def', Rat.divInt_eq_div, qInv]
  rcases lt_trichotomy a.num 0 with h | h | h
  · rw [if_pos h, Rat.mkRat_eq_div]
    have hn : ((a.num.natAbs : ℕ) : ℚ) = -(a.num : ℚ) := by
      rw [Int.cast_natAbs, abs_of_neg h, Int.cast_neg]
    rw [hn]
    push_cast
    rw [neg_div_neg_eq]
  · rw [if_neg (by omega)]
    simp [h, Rat.mkRat_eq_div]
  · rw [if_neg (by omega), Rat.mkRat_eq_div]
    have hn : ((a.num.natAbs : ℕ) : ℚ) = (a.num : ℚ) := by
      rw [Int.cast_natAbs, abs_of_pos h]
    rw [hn]

theorem qDiv_eq (a b : ℚ) : qDiv a b = a / b := by
  rw [qDiv, qMul_eq, qInv_eq, div_eq_mul_inv]

/-- A JavaScript number: a finite value (idealised as an exact rational) or one
of the distinguished non-finite values produced by `Number(...)`. -/
inductive JsNum where
  | nan
  | inf
  | negInf
  | fin (v : ℚ)
  deriving DecidableEq, Repr

/-- IEEE-style addition on `JsNum`, as performed by Mongo's `$inc` on doubles:
`NaN` is absorbing, opposite infinities give `NaN`, an infinity absorbs any
finite value. -/
def JsNum.add : JsNum → JsNum → JsNum
  | .nan, _ => .nan
  | _, .nan => .nan
  | .inf, .negInf => .nan
  | .negInf, .inf => .nan
  | .inf, _ => .inf
  | _, .inf => .inf
  | .negInf, _ => .negInf
  | _, .negInf => .negInf
  | .fin a, .fin b => .fin (qAdd a b)

/-- A JSON-ish JavaScript value as seen in request bodies (`req.body` after
`express.json()`), plus `undefined` for absent fields and `date` for the
server-side `new Date()` stamp.  Objects other than the request payload itself
do not occur in the modelled code paths, so nested objects are omitted. -/
inductive JsValue where
  | undefined
  | null
  | bool (b : Bool)
  | num (n : JsNum)
  | str (s : String)
  | arr (elems : List JsValue)
  | date (t : ℕ)
  deriving Repr

/-- JavaScript truthiness: `undefined`, `null`, `false`, `0`, `NaN` and `""`
are falsy; every object (including the empty array `[]` and any `Date`) is
truthy. -/
def truthy : JsValue → Bool
  | .undefined => false
  | .null => false
  | .bool b => b
  | .num .nan => false
  | .num (.fin v) => decide (v ≠ 0)
  | .num _ => true
  | .str s => decide (s ≠ "")
  | .arr _ => true
  | .date _ => true

/-! ### The `Number(...)` coercion

`Number` on a string follows the ECMAScript *StringNumericLiteral* grammar:
the string is trimmed; the empty remainder is `0`; otherwise it is either a
signed decimal literal (digits, optional fraction, optional exponent, or
`Infinity`) or an unsigned `0x`/`0o`/`0b` radix literal; anything else is
`NaN`. -/

/-- The white-space characters recognised by JavaScript's `String.prototype.trim`
and by the leading/trailing trim inside `Number(...)` (space, tab, LF, VT, FF,
CR, NBSP, line/paragraph separator, BOM). -/
def wsChars : List Char :=
  [' ', '\t', '\n', '\x0b', '\x0c', '\r',
   Char.ofNat 160, Char.ofNat 8232, Char.ofNat 8233, Char.ofNat 65279]

def isWs (c : Char) : Bool := wsChars.contains c

/-- Trim white space from both ends of a character list. -/
def trimList (l : List Char) : List Char :=
  ((l.dropWhile isWs).reverse.dropWhile isWs).reverse

/-- `String.prototype.trim`. -/
def jsTrim (s : String) : String := ⟨trimList s.toList⟩

def isDigit (c : Char) : Bool := '0' ≤ c && c ≤ '9'

def isHexDigit (c : Char) : Bool :=
  isDigit c || ('a' ≤ c && c ≤ 'f') || ('A' ≤ c && c ≤ 'F')

def isOctDigit (c : Char) : Bool := '0' ≤ c && c ≤ '7'

def isBinDigit (c : Char) : Bool := c = '0' || c = '1'

def digVal (c : Char) : ℕ :=
  if isDigit c then c.toNat - 48
  else if 'a' ≤ c && c ≤ 'f' then c.toNat - 87
  else if 'A' ≤ c && c ≤ 'F' then c.toNat - 55
  else 0

/-- Value of a digit string in a given base. -/
def digitsVal (base : ℕ) (l : List Char) : ℕ :=
  l.foldl (fun a c => base * a + digVal c) 0

/-- Parse the part after `e`/`E`: an optional sign followed by a non-empty run
of decimal digits, consuming the whole input. -/
def parseExpTail (l : List Char) : Option ℤ :=
  match l with
  | [] => none
  | '+' :: r => if r ≠ [] && r.all isDigit then some (digitsVal 10 r : ℕ) else none
  | '-' :: r => if r ≠ [] && r.all isDigit then some (-(digitsVal 10 r : ℕ) : ℤ) else none
  | r => if r.all isDigit then some (digitsVal 10 r : ℕ) else none

/-- Parse an optional exponent part (`e`/`E` then a signed digit run), which
must consume the whole input; absent exponent is `0`. -/
def parseExpOpt (l : List Char) : Option ℤ :=
  match l with
  | [] => some 0
  | c :: r => if c = 'e' || c = 'E' then parseExpTail r else none

/-- Scale a rational by a signed power of ten. -/
def applyExp (q : ℚ) (e : ℤ) : ℚ :=
  if 0 ≤ e then qMul q ((10 ^ e.toNat : ℕ) : ℚ)
  else qDiv q ((10 ^ (-e).toNat : ℕ) : ℚ)

/-- Parse an unsigned decimal literal (`DecimalDigits ['.' DecimalDigits?]
Exponent?` or `'.' DecimalDigits Exponent?`), consuming the whole input. -/
def parseUD (l : List Char) : Option ℚ :=
  let intD := l.takeWhile isDigit
  match l.dropWhile isDigit with
  | [] =>
    if intD = [] then none
    else (parseExpOpt []).map fun e => applyExp (digitsVal 10 intD : ℚ) e
  | c :: r2 =>
    if c = '.' then
      let fracD := r2.takeWhile isDigit
      let r3 := r2.dropWhile isDigit
      if intD = [] && fracD = [] then none
      else (parseExpOpt r3).map fun e =>
        applyExp
          (qAdd (digitsVal 10 intD : ℚ)
            (qDiv (digitsVal 10 fracD : ℚ) ((10 ^ fracD.length : ℕ) : ℚ))) e
    else
      if intD = [] then none
      else (parseExpOpt (c :: r2)).map fun e => applyExp (digitsVal 10 intD : ℚ) e

def infinityChars : List Char := "Infinity".toList

/-- The body of a (possibly signed) decimal literal: `Infinity`, or an
unsigned decimal literal; anything else is `NaN`. -/
def signedTail (r : List Char) (neg : Bool) : JsNum :=
  if r = infinityChars then (if neg then .negInf else .inf)
  else
    match parseUD r with
    | some v => .fin (if neg then qNeg v else v)
    | none => .nan

/-- Does the list start with a `0x`/`0o`/`0b` radix prefix? -/
def isRadixPrefixed (l : List Char) : Bool :=
  match l with
  | a :: c :: _ =>
    a = '0' && (c = 'x' || c = 'X' || c = 'o' || c = 'O' || c = 'b' || c = 'B')
  | _ => false

/-- Parse an unsigned radix (hex/octal/binary) literal. -/
def radixParse (l : List Char) : JsNum :=
  match l with
  | '0' :: c :: ds =>
    if c = 'x' || c = 'X' then
      if ds ≠ [] && ds.all isHexDigit then .fin (digitsVal 16 ds : ℕ) else .nan
    else if c = 'o' || c = 'O' then
      if ds ≠ [] && ds.all isOctDigit then .fin (digitsVal 8 ds : ℕ) else .nan
    else if c = 'b' || c = 'B' then
      if ds ≠ [] && ds.all isBinDigit then .fin (digitsVal 2 ds : ℕ) else .nan
    else .nan
  | _ => .nan

/-- `Number(...)` on an already-trimmed character list. -/
def jsNumberOfTrimmed (l : List Char) : JsNum :=
  match l with
  | [] => .fin 0
  | c :: r =>
    if c = '+' then signedTail r false
    else if c = '-' then signedTail r true
    else if isRadixPrefixed (c :: r) then radixParse (c :: r)
    else signedTail (c :: r) false

/-- `Number(s)` for a string `s` (trims, then parses the numeric literal). -/
def jsNumber (s : String) : JsNum := jsNumberOfTrimmed (trimList s.toList)

/-- The `Number(...)` coercion on an arbitrary value (`ToNumber`):
`undefined ↦ NaN`, `null ↦ 0`, booleans to `0`/`1`, strings via the numeric
grammar; an array converts through its string form, so `[] ↦ 0`, a singleton
converts its element (with `null`/`undefined` becoming the empty string) and
longer arrays contain a comma and so give `NaN`. -/
def toNumber : JsValue → JsNum
  | .undefined => .nan
  | .null => .fin 0
  | .bool false => .fin 0
  | .bool true => .fin 1
  | .num n => n
  | .str s => jsNumber s
  | .arr [] => .fin 0
  | .arr [.null] => .fin 0
  | .arr [.undefined] => .fin 0
  | .arr [.num n] => n
  | .arr [.str s] => jsNumber s
  | .arr _ => .nan
  | .date t => .fin t

/-! ### Data model and store -/

/-- A lesson document as stored in the `lessons` collection (seed data):
text fields plus the numeric `price` and `spaces` fields. -/
structure Item where
  subject : String
  location : String
  description : String
  price : JsNum
  spaces : JsNum
  deriving DecidableEq, Repr

/-- The `lessons` collection: documents keyed by their `_id` hex string. -/
abbrev Store := List (String × Item)

/-- `new ObjectId(id)` succeeds exactly on 24-character hex strings; on
anything else the constructor throws a `BSONError`. -/
def isValidObjectId (s : String) : Bool :=
  s.toList.length = 24 && s.toList.all isHexDigit

/-! ### The `$regex` fragment used by `/search`

The non-numeric branch hands the raw token to Mongo as
`{ $regex: q, $options: "i" }`, i.e. the token is interpreted as a PCRE
pattern, case-insensitively.  We embed the fragment of that language in which
every pattern character is either the wildcard `.` (matching any character
except a newline) or an ordinary non-metacharacter (matching itself up to
ASCII case); patterns containing other metacharacters are outside the model
and no theorem below applies to them. -/

/-- ASCII lowercasing, the case folding relevant to the `i` flag on the ASCII
texts modelled here. -/
def toLowerAscii (c : Char) : Char :=
  if 'A' ≤ c && c ≤ 'Z' then Char.ofNat (c.toNat + 32) else c

/-- The PCRE metacharacters; a token free of all of these is matched as a
literal string. -/
def regexMeta : List Char :=
  ['\\', '^', '$', '.', '|', '?', '*', '+', '(', ')', '[', ']', '\x7b', '\x7d']

/-- Does the pattern consist only of non-metacharacters? -/
def noMeta (l : List Char) : Bool := l.all fun c => !(regexMeta.contains c)

/-- One pattern atom against one subject character: `.` matches anything but a
newline; any other character matches itself case-insensitively. -/
def atomMatch (p c : Char) : Bool :=
  if p = '.' then c ≠ '\n' else toLowerAscii p = toLowerAscii c

/-- Does the pattern match a prefix of the subject, atom by atom? -/
def matchHere : List Char → List Char → Bool
  | [], _ => true
  | _ :: _, [] => false
  | p :: ps, c :: cs => atomMatch p c && matchHere ps cs

/-- Unanchored search: does the pattern match starting at some position? -/
def searchFrom (pat : List Char) : List Char → Bool
  | [] => matchHere pat []
  | c :: cs => matchHere pat (c :: cs) || searchFrom pat cs

/-- Case-insensitive regex test, as `{ $regex: pat, $options: "i" }` behaves on
patterns inside the embedded fragment. -/
def regexTestCI (pat s : String) : Bool := searchFrom pat.toList s.toList

/-- Case-insensitive literal substring containment — the predicate the spec
describes for the text branch of the search. -/
def containsCI (needle hay : String) : Bool :=
  decide (List.IsInfix (needle.toList.map toLowerAscii) (hay.toList.map toLowerAscii))

/-! ### `GET /search` -/

/-- The structured filter the handler builds: either an exact-equality `$or`
over the numeric fields or a case-insensitive `$regex` `$or` over the text
fields. -/
inductive Filter where
  | numeric (n : JsNum)
  | textRegex (pat : String)
  deriving Repr

/-- Filter semantics of a single document, as Mongo's `find` evaluates the
`$or` query built by the handler. -/
def itemMatches (f : Filter) (it : Item) : Bool :=
  match f with
  | .numeric n => it.price == n || it.spaces == n
  | .textRegex pat =>
    regexTestCI pat it.subject || regexTestCI pat it.location ||
      regexTestCI pat it.description

inductive SearchResult where
  | badRequest (msg : String)
  | ok (results : Store)
  deriving DecidableEq, Repr

/-- `app.get("/search")`: read `q` (absent ⇒ `""`), trim it, reject an empty
token with 400, otherwise dispatch on `!Number.isNaN(Number(q))` to the
numeric-equality filter or the regex filter and return the matching
documents. -/
def searchHandler (store : Store) (qp : Option String) : SearchResult :=
  let q := jsTrim (qp.getD "")
  if q = "" then .badRequest "Missing search query 'q'"
  else
    let isNumeric := !(jsNumber q == JsNum.nan)
    if isNumeric then
      .ok (store.filter fun d => itemMatches (.numeric (jsNumber q)) d.2)
    else
      .ok (store.filter fun d => itemMatches (.textRegex q) d.2)

/-! ### `PUT /lessons/:id` -/

inductive PutResult where
  | badRequest (msg : String)
  | notFound (msg : String)
  | okDoc (doc : String × Item)
  | serverError
  deriving DecidableEq, Repr

/-- `findOneAndUpdate({_id}, {$inc: {spaces: delta}}, {returnDocument:
"after"})`: atomically increment `spaces` of the first document with the given
id and return the post-update document, or `none` when no document matches. -/
def findOneAndUpdateInc (store : Store) (id : String) (delta : JsNum) :
    Option (String × Item) × Store :=
  match store with
  | [] => (none, [])
  | d :: rest =>
    if d.1 = id then
      let d' := (d.1, { d.2 with spaces := d.2.spaces.add delta })
      (some d', d' :: rest)
    else
      ((findOneAndUpdateInc rest id delta).1,
       d :: (findOneAndUpdateInc rest id delta).2)

/-- `app.put("/lessons/:id")`: coerce `spacesDelta` with `Number`, reject `NaN`
with 400; `new ObjectId(id)` throws on a malformed id, which the `catch` routes
to the generic error handler (500); otherwise run the unconditional atomic
`$inc` and answer 404 when the id matches nothing or 200 with the post-update
document. -/
def putLesson (store : Store) (id : String) (spacesDelta : JsValue) :
    PutResult × Store :=
  let delta := toNumber spacesDelta
  if delta = JsNum.nan then (.badRequest "spacesDelta must be a number", store)
  else if isValidObjectId id = false then (.serverError, store)
  else
    match (findOneAndUpdateInc store id delta).1 with
    | none => (.notFound "Lesson not found", (findOneAndUpdateInc store id delta).2)
    | some doc => (.okDoc doc, (findOneAndUpdateInc store id delta).2)

/-- `n` calls of `PUT /lessons/:id` with `spacesDelta = -1` on the same item.
Each call performs exactly one atomic store operation (the `$inc`), so every
interleaving of `n` concurrent such requests is equivalent to some sequential
order, and as the calls are identical all orders give this result. -/
def runCalls (store : Store) (id : String) : ℕ → List PutResult × Store
  | 0 => ([], store)
  | n + 1 =>
    ((putLesson store id (.num (.fin (-1)))).1
        :: (runCalls (putLesson store id (.num (.fin (-1)))).2 id n).1,
     (runCalls (putLesson store id (.num (.fin (-1)))).2 id n).2)

/-! ### `POST /orders` -/

/-- An order document: an association list of field names to values (JS object
keys are unique, which holds for all payloads built in the development). -/
abbrev OrderDoc := List (String × JsValue)

/-- Property read `o.k` with absent keys yielding `undefined`. -/
def getField (o : OrderDoc) (k : String) : JsValue :=
  (o.lookup k).getD .undefined

/-- The spread-and-override `{...order, k: v}`: overwrite the field in place
when present, append it otherwise. -/
def setField (o : OrderDoc) (k : String) (v : JsValue) : OrderDoc :=
  if (o.lookup k).isSome then o.map (fun p => if p.1 = k then (k, v) else p)
  else o ++ [(k, v)]

inductive OrderResult where
  | badRequest (msg : String)
  | okCreated (orderId : ℕ)
  deriving DecidableEq, Repr

/-- `app.post("/orders")`: reject a falsy body or a body whose `items`, `name`
or `phone` field is falsy with 400; otherwise insert `{...order, createdAt:
new Date()}` into the orders collection and answer with the new id (modelled
as the insertion index). -/
def createOrder (ordersStore : List OrderDoc) (body : Option OrderDoc)
    (now : ℕ) : OrderResult × List OrderDoc :=
  match body with
  | none => (.badRequest "Invalid order payload", ordersStore)
  | some order =>
    if !(truthy (getField order "items")) || !(truthy (getField order "name")) ||
        !(truthy (getField order "phone")) then
      (.badRequest "Invalid order payload", ordersStore)
    else
      (.okCreated ordersStore.length,
       ordersStore ++ [setField order "createdAt" (.date now)])

/-! ### Trim lemmas -/

theorem dropWhile_idem (p : Char → Bool) (l : List Char) :
    (l.dropWhile p).dropWhile p = l.dropWhile p := by
  induction l with
  | nil => rfl
  | cons a t ih =>
    rw [List.dropWhile_cons]
    by_cases h : p a
    · rw [if_pos h]
      exact ih
    · rw [if_neg h, List.dropWhile_cons, if_neg h]

theorem exists_prepend_dropWhile (p : Char → Bool) (l : List Char) :
    ∃ u, u ++ l.dropWhile p = l := by
  induction l with
  | nil => exact ⟨[], rfl⟩
  | cons a t ih =>
    rw [List.dropWhile_cons]
    by_cases h : p a
    · obtain ⟨u, hu⟩ := ih
      exact ⟨a :: u, by rw [if_pos h, List.cons_append, hu]⟩
    · exact ⟨[], by rw [if_neg h]; rfl⟩

theorem head?_dropWhile_false (p : Char → Bool) (l : List Char) (c : Char)
    (h : (l.dropWhile p).head? = some c) : p c = false := by
  induction l with
  | nil => simp [List.dropWhile] at h
  | cons a t ih =>
    rw [List.dropWhile_cons] at h
    by_cases hp : p a
    · rw [if_pos hp] at h
      exact ih h
    · rw [if_neg hp] at h
      simp only [List.head?_cons, Option.some.injEq] at h
      subst h
      exact Bool.eq_false_iff.mpr hp

theorem dropWhile_eq_self_head (p : Char → Bool) (l : List Char)
    (h : ∀ c, l.head? = some c → p c = false) : l.dropWhile p = l := by
  cases l with
  | nil => rfl
  | cons a t =>
    rw [List.dropWhile_cons, if_neg (by simp [h a rfl])]

theorem trimList_idem (l : List Char) : trimList (trimList l) = trimList l := by
  unfold trimList
  have hfront :
      (((l.dropWhile isWs).reverse.dropWhile isWs).reverse).dropWhile isWs
        = ((l.dropWhile isWs).reverse.dropWhile isWs).reverse := by
    apply dropWhile_eq_self_head
    intro c hc
    obtain ⟨u, hu⟩ := exists_prepend_dropWhile isWs (l.dropWhile isWs).reverse
    have hm2 : l.dropWhile isWs
        = ((l.dropWhile isWs).reverse.dropWhile isWs).reverse ++ u.reverse := by
      have h2 := congrArg List.reverse hu
      simpa using h2.symm
    have hmh : (l.dropWhile isWs).head? = some c := by
      rw [hm2]
      cases ht : ((l.dropWhile isWs).reverse.dropWhile isWs).reverse with
      | nil => rw [ht] at hc; simp at hc
      | cons x xs =>
        rw [ht] at hc
        simp only [List.head?_cons, Option.some.injEq] at hc
        simp [List.cons_append, hc]
    exact head?_dropWhile_false isWs l c hmh
  rw [hfront, List.reverse_reverse, dropWhile_idem]

theorem jsTrim_idem (s : String) : jsTrim (jsTrim s) = jsTrim s := by
  show (⟨trimList (⟨trimList s.toList⟩ : String).toList⟩ : String)
      = (⟨trimList s.toList⟩ : String)
  have h : (⟨trimList s.toList⟩ : String).toList = trimList s.toList := rfl
  rw [h, trimList_idem]

theorem jsTrim_toList (s : String) : (jsTrim s).toList = trimList s.toList := rfl

/-! ### Claims about the query translator: empty tokens (C6) -/

/-- C6: A `q` parameter that is absent, empty, or all white space is
rejected with the 400 "missing query" response rather than running a search;
moreover the token is trimmed before either dispatch path, so a handler call
on a raw query behaves exactly as on its trimmed form. -/
theorem search_empty_token_rejected (store : Store) (q : String) :
    (jsTrim q = "" → searchHandler store (some q) = .badRequest "Missing search query 'q'")
    ∧ searchHandler store none = .badRequest "Missing search query 'q'"
    ∧ searchHandler store (some q) = searchHandler store (some (jsTrim q)) := by
  refine ⟨fun h => ?_, ?_, ?_⟩
  · rw [searchHandler]
    simp only [Option.getD_some]
    rw [if_pos h]
  · rfl
  · show searchHandler store (some q) = searchHandler store (some (jsTrim q))
    rw [searchHandler, searchHandler]
    simp only [Option.getD_some]
    rw [jsTrim_idem]

/-- Concrete run of `search_empty_token_rejected`: the all-blank query `"   "`
is answered with the 400 response. -/
theorem search_empty_token_rejected_witness :
    jsTrim "   " = ""
    ∧ searchHandler [] (some "   ") = .badRequest "Missing search query 'q'" :=
  ⟨by decide, (search_empty_token_rejected [] "   ").1 (by decide)⟩

/-! ### Claims about the query translator: numeric tokens (C4) -/

/-- Spec-side notion for C4: a token that "parses fully as a decimal number" —
an optional sign followed by an unsigned decimal literal consuming the whole
token.  This is the refinement counterpart to the code's `Number`-based
dispatch; note that it deliberately excludes the `Infinity` and radix forms
that `Number` additionally accepts. -/
def decimalTokenL? (l : List Char) : Option ℚ :=
  match l with
  | [] => none
  | c :: r =>
    if c = '+' then parseUD r
    else if c = '-' then (parseUD r).map qNeg
    else parseUD (c :: r)

def decimalToken? (s : String) : Option ℚ := decimalTokenL? s.toList

theorem signedTail_of_parseUD (r : List Char) (v : ℚ) (neg : Bool)
    (h : parseUD r = some v) :
    signedTail r neg = .fin (if neg then qNeg v else v) := by
  have hinf : r ≠ infinityChars := by
    intro he
    rw [he] at h
    rw [show parseUD infinityChars = none from by decide] at h
    cases h
  rw [signedTail, if_neg hinf, h]

theorem parseUD_of_radixPrefixed (l : List Char) (h : isRadixPrefixed l = true) :
    parseUD l = none := by
  match l with
  | [] => simp [isRadixPrefixed] at h
  | [a] => simp [isRadixPrefixed] at h
  | a :: c :: rest =>
    rw [isRadixPrefixed] at h
    simp only [Bool.and_eq_true, Bool.or_eq_true, decide_eq_true_eq] at h
    obtain ⟨ha, hc⟩ := h
    subst ha
    have hcd : isDigit c = false := by
      rcases hc with ((((h | h) | h) | h) | h) | h <;> subst h <;> decide
    have hdot : ¬ (c = '.') := by
      rcases hc with ((((h | h) | h) | h) | h) | h <;> subst h <;> decide
    have hee : (c = 'e' || c = 'E') = false := by
      rcases hc with ((((h | h) | h) | h) | h) | h <;> subst h <;> decide
    simp only [parseUD, List.takeWhile_cons, List.dropWhile_cons,
      show isDigit '0' = true from by decide, hcd, parseExpOpt, hee,
      if_true, if_false, Bool.false_eq_true, if_neg hdot]
    simp

theorem jsNumberOfTrimmed_decimal (l : List Char) (v : ℚ)
    (h : decimalTokenL? l = some v) : jsNumberOfTrimmed l = .fin v := by
  cases l with
  | nil => simp [decimalTokenL?] at h
  | cons c r =>
    rw [decimalTokenL?] at h
    rw [jsNumberOfTrimmed]
    by_cases hp : c = '+'
    · rw [if_pos hp] at h ⊢
      simpa using signedTail_of_parseUD r v false h
    · rw [if_neg hp] at h ⊢
      by_cases hm : c = '-'
      · rw [if_pos hm] at h ⊢
        obtain ⟨w, hw, hv⟩ := Option.map_eq_some'.mp h
        rw [signedTail_of_parseUD r w true hw]
        simp [hv]
      · rw [if_neg hm] at h ⊢
        have hrad : ¬ (isRadixPrefixed (c :: r) = true) := by
          intro hr
          rw [parseUD_of_radixPrefixed _ hr] at h
          cases h
        rw [if_neg (by simpa using hrad)]
        simpa using signedTail_of_parseUD (c :: r) v false h

/-- The seed Item of the spec's end-to-end property (§8). -/
def seedItem : Item :=
  { subject := "Math", location := "Room1", description := "Algebra basics"
    price := .fin 20, spaces := .fin 5 }

/-- A well-formed 24-hex-character document id. -/
def seedId : String := "aaaaaaaaaaaaaaaaaaaaaaaa"

def seedStore : Store := [(seedId, seedItem)]

/-- C4: A token whose trimmed form parses fully as a decimal number is
dispatched to the numeric branch, and the response is exactly the linear scan
of the store with the exact-equality predicate `price == t ∨ spaces == t`. -/
theorem search_numeric_token (store : Store) (t : String) (v : ℚ)
    (h : decimalToken? (jsTrim t) = some v) :
    searchHandler store (some t)
      = .ok (store.filter fun d =>
          d.2.price == JsNum.fin v || d.2.spaces == JsNum.fin v) := by
  have hnum : jsNumber (jsTrim t) = .fin v := by
    rw [jsNumber, jsTrim_toList, trimList_idem]
    exact jsNumberOfTrimmed_decimal _ v h
  have hne : jsTrim t ≠ "" := by
    intro he
    rw [he] at h
    simp [decimalToken?, decimalTokenL?] at h
  simp only [searchHandler, Option.getD_some]
  rw [if_neg hne, hnum]
  have hb : (JsNum.fin v == JsNum.nan) = false :=
    beq_eq_false_iff_ne.mpr (fun hv => JsNum.noConfusion hv)
  rw [hb]
  rfl

/-- Concrete run of `search_numeric_token`: searching the seed store for
`"20"` returns exactly the seed document (its price is 20). -/
theorem search_numeric_token_witness :
    decimalToken? (jsTrim "20") = some 20
    ∧ searchHandler seedStore (some "20")
        = .ok (seedStore.filter fun d =>
            d.2.price == JsNum.fin 20 || d.2.spaces == JsNum.fin 20) :=
  ⟨by decide, search_numeric_token seedStore "20" 20 (by decide)⟩

/-! ### Claims about the query translator: text tokens (C5) -/

theorem noMeta_cons (p : Char) (ps : List Char) (h : noMeta (p :: ps) = true) :
    p ≠ '.' ∧ noMeta ps = true := by
  rw [noMeta, List.all_cons, Bool.and_eq_true] at h
  refine ⟨fun he => ?_, h.2⟩
  subst he
  exact absurd h.1 (by decide)

theorem matchHere_lowerPrefix (pat : List Char) (hp : noMeta pat = true) :
    ∀ s : List Char, (matchHere pat s = true
      ↔ (pat.map toLowerAscii) <+: (s.map toLowerAscii)) := by
  induction pat with
  | nil =>
    intro s
    simp [matchHere]
  | cons p ps ih =>
    intro s
    obtain ⟨hpd, hps⟩ := noMeta_cons p ps hp
    cases s with
    | nil => simp [matchHere]
    | cons c cs =>
      simp only [matchHere, List.map_cons, List.cons_prefix_cons, Bool.and_eq_true,
        atomMatch, if_neg hpd, decide_eq_true_eq]
      exact and_congr Iff.rfl (ih hps cs)

theorem searchFrom_lowerInfixCI (pat : List Char) (hp : noMeta pat = true) :
    ∀ s : List Char, (searchFrom pat s = true
      ↔ (pat.map toLowerAscii) <:+: (s.map toLowerAscii)) := by
  intro s
  induction s with
  | nil =>
    simp only [searchFrom]
    rw [matchHere_lowerPrefix pat hp]
    simp
  | cons c cs ih =>
    simp only [searchFrom, Bool.or_eq_true]
    rw [matchHere_lowerPrefix pat hp, ih, List.map_cons, List.infix_cons_iff]

/-- On metacharacter-free patterns, the case-insensitive regex search used by
the code coincides with case-insensitive literal substring containment. -/
theorem regexTestCI_eq_containsCI (pat s : String) (hp : noMeta pat.toList = true) :
    regexTestCI pat s = containsCI pat s := by
  rw [regexTestCI, containsCI]
  apply Bool.eq_iff_iff.mpr
  rw [decide_eq_true_eq]
  exact searchFrom_lowerInfixCI pat.toList hp s.toList

/-- An item whose subject `"abc"` is regex-matched, but not substring-matched,
by the token `"a.c"`. -/
def dotItem : Item :=
  { subject := "abc", location := "Room9", description := "plain"
    price := .fin 1, spaces := .fin 1 }

/-- C5 counterexample: The non-numeric token `"a.c"` is passed to the
store as a regular expression, so it matches the item with subject `"abc"`
even though `"a.c"` is not a substring of any of its three text fields — the
handler's result is not the substring-predicate linear scan the claim
describes. -/
theorem search_text_token_counterexample :
    jsNumber "a.c" = .nan
    ∧ searchHandler [(seedId, dotItem)] (some "a.c") = .ok [(seedId, dotItem)]
    ∧ containsCI "a.c" dotItem.subject = false
    ∧ containsCI "a.c" dotItem.location = false
    ∧ containsCI "a.c" dotItem.description = false :=
  ⟨by decide, by decide, by decide, by decide, by decide⟩

/-- C5, amended: For a non-empty, non-numeric token free of regex
metacharacters, the filter matches exactly the Items where the token occurs as
a case-insensitive substring, at any position, in the subject, location, or
description field; in general the token is interpreted as a case-insensitive
regular expression, not a literal substring. -/
theorem search_text_token (store : Store) (t : String)
    (htrim : jsTrim t = t) (hne : t ≠ "") (hnan : jsNumber t = .nan)
    (hmeta : noMeta t.toList = true) :
    searchHandler store (some t)
      = .ok (store.filter fun d =>
          containsCI t d.2.subject || containsCI t d.2.location ||
            containsCI t d.2.description) := by
  simp only [searchHandler, Option.getD_some]
  rw [htrim, if_neg hne, hnan, if_neg (by decide)]
  congr 1
  apply List.filter_congr
  intro d _
  simp only [itemMatches]
  rw [regexTestCI_eq_containsCI _ _ hmeta, regexTestCI_eq_containsCI _ _ hmeta,
    regexTestCI_eq_containsCI _ _ hmeta]

/-- Concrete run of `search_text_token`: searching the seed store for
`"math"` returns the seed document by case-insensitive substring match. -/
theorem search_text_token_witness :
    jsTrim "math" = "math" ∧ jsNumber "math" = .nan ∧ noMeta "math".toList = true
    ∧ searchHandler seedStore (some "math")
        = .ok (seedStore.filter fun d =>
            containsCI "math" d.2.subject || containsCI "math" d.2.location ||
              containsCI "math" d.2.description) :=
  ⟨by decide, by decide, by decide,
    search_text_token seedStore "math" (by decide) (by decide) (by decide) (by decide)⟩

/-! ### Claims about the inventory mutator (C1, C2, C3, C7, C10) -/

theorem findOneAndUpdateInc_fst (store : Store) (id : String) (delta : JsNum) :
    (findOneAndUpdateInc store id delta).1
      = (store.lookup id).map fun it => (id, { it with spaces := it.spaces.add delta }) := by
  induction store with
  | nil => rfl
  | cons d rest ih =>
    obtain ⟨k, it⟩ := d
    by_cases h : k = id
    · subst h
      simp [findOneAndUpdateInc, List.lookup_cons_self]
    · have hbeq : (id == k) = false := beq_eq_false_iff_ne.mpr (fun he => h he.symm)
      simp only [findOneAndUpdateInc, if_neg h, List.lookup_cons, hbeq]
      exact ih

theorem findOneAndUpdateInc_snd_lookup (store : Store) (id : String) (delta : JsNum) :
    ((findOneAndUpdateInc store id delta).2).lookup id
      = (store.lookup id).map fun it => { it with spaces := it.spaces.add delta } := by
  induction store with
  | nil => rfl
  | cons d rest ih =>
    obtain ⟨k, it⟩ := d
    by_cases h : k = id
    · subst h
      simp [findOneAndUpdateInc, List.lookup_cons_self]
    · have hbeq : (id == k) = false := beq_eq_false_iff_ne.mpr (fun he => h he.symm)
      simp only [findOneAndUpdateInc, if_neg h, List.lookup_cons, hbeq]
      exact ih

/-- Core behaviour of `PUT /lessons/:id` on an existing document and a finite
delta: the handler succeeds unconditionally, answers with the post-update
document, and the stored `spaces` moves from `s` to `s + d` — the code performs
no floor check of any kind. -/
theorem putLesson_inc (store : Store) (id : String) (body : JsValue) (it : Item)
    (s d : ℚ)
    (hid : isValidObjectId id = true)
    (hb : toNumber body = .fin d)
    (hl : store.lookup id = some it)
    (hs : it.spaces = .fin s) :
    (putLesson store id body).1 = .okDoc (id, { it with spaces := .fin (s + d) })
    ∧ ((putLesson store id body).2).lookup id
        = some { it with spaces := .fin (s + d) } := by
  have hadd : it.spaces.add (.fin d) = .fin (s + d) := by
    rw [hs]
    show JsNum.fin (qAdd s d) = .fin (s + d)
    rw [qAdd_eq]
  have h1 := findOneAndUpdateInc_fst store id (.fin d)
  have h2 := findOneAndUpdateInc_snd_lookup store id (.fin d)
  rw [hl, Option.map_some', hadd] at h1 h2
  constructor
  · simp only [putLesson, hb]
    rw [if_neg (fun hv => JsNum.noConfusion hv), if_neg (by rw [hid]; exact fun hv => Bool.noConfusion hv)]
    rw [h1]
  · simp only [putLesson, hb]
    rw [if_neg (fun hv => JsNum.noConfusion hv), if_neg (by rw [hid]; exact fun hv => Bool.noConfusion hv)]
    rw [h1, h2]

/-- C3: For an existing Item with spaces `s` and a delta `d` whose request
value coerces to the finite number `d` with `s + d ≥ 0`, the PUT succeeds, the
stored spaces become `s + d`, and the response body is the post-update
document. -/
theorem adjustSpaces_success (store : Store) (id : String) (body : JsValue)
    (it : Item) (s d : ℚ)
    (hid : isValidObjectId id = true)
    (hb : toNumber body = .fin d)
    (hl : store.lookup id = some it)
    (hs : it.spaces = .fin s)
    (hpos : 0 ≤ s + d) :
    (putLesson store id body).1 = .okDoc (id, { it with spaces := .fin (s + d) })
    ∧ ((putLesson store id body).2).lookup id
        = some { it with spaces := .fin (s + d) } :=
  putLesson_inc store id body it s d hid hb hl hs

/-- Concrete run of `adjustSpaces_success`: consuming all five seed spaces
leaves zero and answers with the updated document. -/
theorem adjustSpaces_success_witness :
    (0:ℚ) ≤ 5 + (-5)
    ∧ (putLesson seedStore seedId (.num (.fin (-5)))).1
        = .okDoc (seedId, { seedItem with spaces := .fin (5 + (-5)) }) :=
  ⟨by simp,
   (adjustSpaces_success seedStore seedId (.num (.fin (-5))) seedItem 5 (-5)
      (by decide) rfl (by decide) rfl (by simp)).1⟩

/-- C1 counterexample: On the seed document with `spaces = 0`, the delta
`-1` (so `s + d = -1 < 0`) is *not* rejected: the request succeeds with a 200
response and the stored spaces become `-1`.  There is no insufficient-spaces
error and the mutation does happen. -/
theorem adjustSpaces_no_floor_counterexample :
    (putLesson [(seedId, { seedItem with spaces := .fin 0 })] seedId
        (.num (.fin (-1)))).1
      = .okDoc (seedId, { seedItem with spaces := .fin (-1) })
    ∧ ((putLesson [(seedId, { seedItem with spaces := .fin 0 })] seedId
        (.num (.fin (-1)))).2).lookup seedId
      = some { seedItem with spaces := .fin (-1) }
    ∧ ((-1 : ℚ) < 0) :=
  ⟨by decide, by decide, by decide⟩

/-- C1, amended: For an existing Item with spaces `s` and a finite delta
`d` with `s + d < 0`, `adjustSpaces` does *not* fail: the unconditional `$inc`
succeeds, the response is the post-update document and the stored spaces
become the negative value `s + d`. -/
theorem adjustSpaces_negative_succeeds (store : Store) (id : String)
    (body : JsValue) (it : Item) (s d : ℚ)
    (hid : isValidObjectId id = true)
    (hb : toNumber body = .fin d)
    (hl : store.lookup id = some it)
    (hs : it.spaces = .fin s)
    (hneg : s + d < 0) :
    (putLesson store id body).1 = .okDoc (id, { it with spaces := .fin (s + d) })
    ∧ ((putLesson store id body).2).lookup id
        = some { it with spaces := .fin (s + d) } :=
  putLesson_inc store id body it s d hid hb hl hs

/-- Concrete run of `adjustSpaces_negative_succeeds` at `s = 5`, `d = -6`. -/
theorem adjustSpaces_negative_succeeds_witness :
    (5 : ℚ) + (-6) < 0
    ∧ (putLesson seedStore seedId (.num (.fin (-6)))).1
        = .okDoc (seedId, { seedItem with spaces := .fin (5 + (-6)) }) :=
  ⟨by simp; decide,
   (adjustSpaces_negative_succeeds seedStore seedId (.num (.fin (-6))) seedItem 5 (-6)
      (by decide) rfl (by decide) rfl (by simp; decide)).1⟩

/-- C2 counterexample: Take `k = 0` spaces and `N = 1` decrement call (so
`k < N`): the claim predicts exactly `0` successes and a non-negative spaces
value, but the single call succeeds and drives the stored spaces to `-1`. -/
theorem concurrent_decrement_counterexample :
    (runCalls [(seedId, { seedItem with spaces := .fin 0 })] seedId 1).1
      = [.okDoc (seedId, { seedItem with spaces := .fin (-1) })]
    ∧ ((runCalls [(seedId, { seedItem with spaces := .fin 0 })] seedId 1).2).lookup seedId
      = some { seedItem with spaces := .fin (-1) }
    ∧ ((-1 : ℚ) < 0) :=
  ⟨by decide, by decide, by decide⟩

/-- C2, amended: Each `PUT /lessons/:id` performs exactly one atomic store
operation (the unconditional `$inc`), so every interleaving of `N` concurrent
`adjustSpaces(id, -1)` calls equals the sequential composition `runCalls`;
*all* `N` calls succeed — none fails with an insufficient-capacity error — and
the stored spaces end at `k - N`, which is negative whenever `k < N`. -/
theorem runCalls_all_succeed (store : Store) (id : String) (it : Item) (k : ℚ)
    (hid : isValidObjectId id = true)
    (hl : store.lookup id = some it)
    (hs : it.spaces = .fin k) :
    ∀ n : ℕ, (∀ r ∈ (runCalls store id n).1, ∃ doc, r = .okDoc doc)
      ∧ ((runCalls store id n).2).lookup id
          = some { it with spaces := .fin (k - n) } := by
  intro n
  induction n generalizing store it k with
  | zero =>
    refine ⟨fun r hr => absurd hr (by simp [runCalls]), ?_⟩
    simp only [runCalls]
    rw [hl]
    have h0 : { it with spaces := JsNum.fin (k - ((0:ℕ):ℚ)) } = it := by
      rw [show ((0:ℕ):ℚ) = 0 from rfl, sub_zero, ← hs]
    rw [h0]
  | succ n ih =>
    have hput := putLesson_inc store id (.num (.fin (-1))) it k (-1) hid rfl hl hs
    have ih' := ih ((putLesson store id (.num (.fin (-1)))).2)
      { it with spaces := .fin (k + -1) } (k + -1) hput.2 rfl
    refine ⟨?_, ?_⟩
    · intro r hr
      simp only [runCalls, List.mem_cons] at hr
      rcases hr with hr | hr
      · exact ⟨_, by rw [hr, hput.1]⟩
      · exact ih'.1 r hr
    · simp only [runCalls]
      rw [ih'.2]
      have hval : (k + -1) - (n:ℚ) = k - ((n+1 : ℕ) : ℚ) := by
        push_cast
        ring
      rw [hval]

/-- Concrete run of `runCalls_all_succeed`: seven sequentialised decrement
calls on the seed item (five spaces) leave spaces `5 - 7 = -2`. -/
theorem runCalls_all_succeed_witness :
    isValidObjectId seedId = true
    ∧ ((runCalls seedStore seedId 7).2).lookup seedId
        = some { seedItem with spaces := .fin (5 - ((7:ℕ):ℚ)) } :=
  ⟨by decide,
   (runCalls_all_succeed seedStore seedId seedItem 5 (by decide) (by decide) rfl 7).2⟩

/-- C7 counterexample: A `null` `spacesDelta` is *not* rejected:
`Number(null)` is `0`, so the request passes the `NaN` guard and performs the
store update (a no-op `$inc` of `0`), answering 200 with the document. -/
theorem adjustSpaces_null_counterexample :
    toNumber JsValue.null = .fin 0
    ∧ putLesson seedStore seedId .null = (.okDoc (seedId, seedItem), seedStore) :=
  ⟨by decide, by decide⟩

/-- C7, amended: A `spacesDelta` whose `Number(...)` coercion is `NaN`
(e.g. a non-numeric string, or a missing field, which reads as `undefined`) is
rejected with the 400 "must be a number" response before any store write — the
store is returned unchanged.  `null`, however, coerces to `0` and is accepted,
and neither finiteness nor integrality of a numeric delta is checked. -/
theorem adjustSpaces_nan_rejected (store : Store) (id : String) (v : JsValue)
    (h : toNumber v = .nan) :
    putLesson store id v = (.badRequest "spacesDelta must be a number", store) := by
  simp [putLesson, h]

/-- Concrete run of `adjustSpaces_nan_rejected`: the non-numeric string
`"abc"` and the missing field (`undefined`) are both rejected with 400. -/
theorem adjustSpaces_nan_rejected_witness :
    toNumber (.str "abc") = .nan
    ∧ putLesson seedStore seedId (.str "abc")
        = (.badRequest "spacesDelta must be a number", seedStore) :=
  ⟨by decide, adjustSpaces_nan_rejected seedStore seedId (.str "abc") (by decide)⟩

/-- C10: A numeric `spacesDelta` together with an `id` that is not a valid
24-hex-character ObjectId string does not produce a 404: `new ObjectId(id)`
throws, the `catch` forwards to the generic error handler, and the request is
answered with the 500 server-error response, the store untouched. -/
theorem put_invalid_id_server_error (store : Store) (id : String) (v : JsValue)
    (hnum : toNumber v ≠ .nan) (hid : isValidObjectId id = false) :
    putLesson store id v = (.serverError, store) := by
  simp only [putLesson]
  rw [if_neg hnum, if_pos hid]

/-- Concrete run of `put_invalid_id_server_error`: `"xyz"` is not 24 hex
characters, so a numeric delta yields the 500 response, not a 404. -/
theorem put_invalid_id_server_error_witness :
    toNumber (.num (.fin 1)) ≠ .nan
    ∧ isValidObjectId "xyz" = false
    ∧ putLesson seedStore "xyz" (.num (.fin 1)) = (.serverError, seedStore) :=
  ⟨by decide, by decide,
   put_invalid_id_server_error seedStore "xyz" (.num (.fin 1)) (by decide) (by decide)⟩

/-! ### Claims about order intake (C8, C9) -/

theorem lookup_map_replace (o : OrderDoc) (k : String) (v : JsValue)
    (h : (o.lookup k).isSome = true) :
    (o.map fun p => if p.1 = k then (k, v) else p).lookup k = some v := by
  induction o with
  | nil => simp at h
  | cons p t ih =>
    obtain ⟨a, b⟩ := p
    by_cases hk : a = k
    · subst hk
      simp [List.lookup_cons_self]
    · have hbeq : (k == a) = false := beq_eq_false_iff_ne.mpr (fun he => hk he.symm)
      simp only [List.lookup_cons, hbeq] at h
      simp only [List.map_cons, if_neg hk, List.lookup_cons, hbeq]
      exact ih h

theorem lookup_append_of_none (o l : OrderDoc) (k : String)
    (h : o.lookup k = none) : (o ++ l).lookup k = l.lookup k := by
  rw [List.lookup_append, h, Option.none_or]

/-- The spread-and-override `{...order, createdAt: v}` always stores `v` under
`createdAt`, whether or not the caller supplied that field. -/
theorem lookup_setField (o : OrderDoc) (k : String) (v : JsValue) :
    (setField o k v).lookup k = some v := by
  rw [setField]
  by_cases h : (o.lookup k).isSome = true
  · rw [if_pos h]
    exact lookup_map_replace o k v h
  · rw [if_neg h]
    have hn : o.lookup k = none :=
      Option.not_isSome_iff_eq_none.mp (by simpa using h)
    rw [lookup_append_of_none o _ k hn, List.lookup_cons_self]

/-- A payload with an *empty* items list but non-blank name and phone. -/
def emptyItemsPayload : OrderDoc :=
  [("items", .arr []), ("name", .str "A"), ("phone", .str "1")]

/-- C8 counterexample: The empty array `[]` is truthy in JavaScript, so a
payload with an empty `items` list (and non-blank name and phone) passes the
`!order.items` check: the order is accepted with 200 and persisted, instead of
failing with the 400 the claim requires. -/
theorem createOrder_empty_items_counterexample :
    getField emptyItemsPayload "items" = .arr []
    ∧ createOrder [] (some emptyItemsPayload) 0
        = (.okCreated 0, [emptyItemsPayload ++ [("createdAt", .date 0)]])
    ∧ ((createOrder [] (some emptyItemsPayload) 0).2).length = 1 :=
  ⟨rfl, rfl, rfl⟩

/-- C8, amended: A payload whose `items`, `name` or `phone` field is
*falsy* (blank name or phone, absent or `null` items — but not the truthy
empty array) fails with the 400 "invalid payload" response and persists
nothing: the order store is returned unchanged. -/
theorem createOrder_falsy_field_rejected (store : List OrderDoc)
    (order : OrderDoc) (now : ℕ)
    (h : truthy (getField order "items") = false
       ∨ truthy (getField order "name") = false
       ∨ truthy (getField order "phone") = false) :
    createOrder store (some order) now
      = (.badRequest "Invalid order payload", store) := by
  rcases h with h | h | h <;> simp [createOrder, h]

/-- A payload with a blank name. -/
def blankNamePayload : OrderDoc :=
  [("items", .arr [.str "lesson1"]), ("name", .str ""), ("phone", .str "123")]

/-- Concrete run of `createOrder_falsy_field_rejected`: a blank name is
rejected and nothing is stored. -/
theorem createOrder_falsy_field_rejected_witness :
    truthy (getField blankNamePayload "name") = false
    ∧ createOrder [] (some blankNamePayload) 0
        = (.badRequest "Invalid order payload", []) :=
  ⟨rfl, createOrder_falsy_field_rejected [] blankNamePayload 0 (Or.inr (Or.inl rfl))⟩

/-- C9: For every payload passing validation, the persisted record carries
the server-assigned creation timestamp under `createdAt`: the record is
`{...order, createdAt: now}`, and its `createdAt` field reads back as the
server time even when the caller supplied a `createdAt` of their own. -/
theorem createOrder_server_timestamp (store : List OrderDoc) (order : OrderDoc)
    (now : ℕ)
    (hi : truthy (getField order "items") = true)
    (hn : truthy (getField order "name") = true)
    (hp : truthy (getField order "phone") = true) :
    createOrder store (some order) now
      = (.okCreated store.length, store ++ [setField order "createdAt" (.date now)])
    ∧ (setField order "createdAt" (.date now)).lookup "createdAt"
        = some (.date now) := by
  refine ⟨?_, lookup_setField order "createdAt" (.date now)⟩
  simp [createOrder, hi, hn, hp]

/-- A valid payload that also smuggles in a caller-supplied `createdAt`. -/
def staleStampPayload : OrderDoc :=
  [("items", .arr [.str "lesson1"]), ("name", .str "Ann"), ("phone", .str "123"),
   ("createdAt", .str "2020-01-01")]

/-- Concrete run of `createOrder_server_timestamp`: the caller's
`createdAt: "2020-01-01"` is overwritten by the server stamp `99`. -/
theorem createOrder_server_timestamp_witness :
    (staleStampPayload.lookup "createdAt").isSome = true
    ∧ (setField staleStampPayload "createdAt" (.date 99)).lookup "createdAt"
        = some (.date 99) :=
  ⟨rfl, (createOrder_server_timestamp [] staleStampPayload 99 rfl rfl rfl).2⟩

end Backend
